import Mathlib

/-!
Formal model of an expert-finding evaluation suite: four baseline ranking
strategies (candidate-level BM25, document-level BM25, candidate-level
language model, document-level language model) over a question/answer
corpus, together with the shared IR evaluation metrics (MAP, MRR, P at K)
and the ground-truth resolution step.

Modelling conventions:
- A text is represented by its whitespace token list (`List String`); the
  Python calls `text.split()` and `" ".join(texts).split()` then become the
  token list itself and list concatenation.  External preprocessing
  (NLTK tokenization, stemming, stopword removal, lower-casing) is passed
  in as a function or applied before the core is called, matching the
  spec, which treats preprocessing as a pluggable external collaborator.
- Counters (`collections.Counter`) are modelled as functions `String → ℕ`
  (a key absent from a counter built from a token list has count 0).
- Python dicts that preserve insertion order are modelled as association
  lists `List (String × _)`.
- Exact arithmetic: BM25 scores live in `ℝ` (because of `math.log`), the
  language-model scores and all metric values live in `ℚ`.
- A Python `ZeroDivisionError` is modelled by an `Option` result.
-/

/-- One answer of the corpus: the answering expert (`attorney_link`) and the
answer text as its token list. -/
structure Answer where
  attorney_link : String
  answer_text : List String
deriving DecidableEq

/-- One question of the corpus: its tags and its answers. -/
structure Question where
  tags : List String
  answers : List Answer
deriving DecidableEq

/-- The corpus: mapping from question id to question, in iteration order. -/
abbrev Corpus := List (String × Question)

/-- The `expert_answers` dict of the candidate-level scripts: each expert
mapped to the list of their answer texts. -/
abbrev ExpertAnswers := List (String × List (List String))

/-- All answers of the corpus in the iteration order of the two nested loops
`for question_id, content in data.items(): for answer in content["answers"]`. -/
def allAnswers (data : Corpus) : List Answer :=
  data.flatMap (fun q => q.2.answers)

/-- Python dict-of-lists update used by every grouping loop of the scripts:
`if key not in d: d[key] = []` followed by `d[key].append(s)`, preserving
dict insertion order. -/
def appendEntry {α : Type} (m : List (String × List α)) (eid : String) (s : α) :
    List (String × List α) :=
  if m.any (fun p => p.1 == eid) then
    m.map (fun p => if p.1 == eid then (p.1, p.2 ++ [s]) else p)
  else m ++ [(eid, [s])]

/-- First entry of an association list with the given key. -/
def findEntry {α : Type} (m : List (String × List α)) (eid : String) :
    Option (String × List α) :=
  m.find? (fun p => p.1 == eid)

/-- Python `d.get(key, [])` on a dict-of-lists. -/
def lookupList {α : Type} (m : List (String × List α)) (eid : String) : List α :=
  ((findEntry m eid).map Prod.snd).getD []

/-- Grouping step shared by the two document-level scripts: score every answer
and collect the scores per expert, in corpus iteration order. -/
def groupScores {α : Type} (f : Answer → α) (data : Corpus) : List (String × List α) :=
  (allAnswers data).foldl (fun m a => appendEntry m a.attorney_link (f a)) []

/-- Stable descending insertion: the new pair is placed behind every element
whose score is at least its own, so elements with equal scores keep their
original relative order. -/
def insertDesc {α : Type} [LinearOrder α] (p : String × α) :
    List (String × α) → List (String × α)
  | [] => [p]
  | q :: rest => if p.2 ≤ q.2 then q :: insertDesc p rest else p :: q :: rest

/-- Model of the Python call `sorted(ranking, key=lambda x: x[1], reverse=True)`,
which is a stable sort by descending score. -/
def sortDesc {α : Type} [LinearOrder α] (l : List (String × α)) : List (String × α) :=
  l.foldl (fun acc p => insertDesc p acc) []

/-- Descending-score relation between ranking entries. -/
def geScore {α : Type} [LinearOrder α] (p q : String × α) : Prop := q.2 ≤ p.2

/-- The floor constant `1e-10` used by both language-model scripts. -/
def smallFloor : ℚ := 1 / 10000000000

/-- Cross-query aggregation state of every `main` loop: the five metric
totals and `num_queries`. -/
structure AggState where
  total_map : ℚ
  total_mrr : ℚ
  total_p1 : ℚ
  total_p2 : ℚ
  total_p5 : ℚ
  num_queries : ℕ
deriving DecidableEq

/-- Initial aggregation state `0, 0, 0, 0, 0` with `num_queries = 0`. -/
def initAgg : AggState := ⟨0, 0, 0, 0, 0, 0⟩

/-- The `enumerate(ranking, 1)` loop shared by every copy of
`calculate_map_mrr_and_precision`: the state is
`(average_precision, reciprocal_rank, num_relevant_found)` and the first
argument after the list is the 1-based rank of its head. -/
def apFold {α : Type} (relevant_experts : List String) :
    List (String × α) → ℕ → ℚ × ℚ × ℕ → ℚ × ℚ × ℕ
  | [], _, st => st
  | p :: rest, rank, (ap, rr, found) =>
    if relevant_experts.contains p.1 then
      apFold relevant_experts rest (rank + 1)
        (ap + ((found + 1 : ℕ) : ℚ) / (rank : ℚ),
         if rr = 0 then 1 / (rank : ℚ) else rr, found + 1)
    else
      apFold relevant_experts rest (rank + 1) (ap, rr, found)

/-- Collection document frequency as the spec words it: the number of
documents that contain the term.  This is a spec-side definition, used to
compare against what the code computes. -/
def docFrequency (docs : List (List String)) (term : String) : ℕ :=
  (docs.filter (fun d => d.contains term)).length

namespace CandBM25

/-- BM25 IDF exactly as computed inline in `calculate_bm25_score` of
candidate_level_BM25_lablog.py:
`math.log((total_documents - tf.get(term, 0) + 0.5) / (tf.get(term, 0) + 0.5) + 1)`. -/
noncomputable def bm25_idf (total_documents df : ℕ) : ℝ :=
  Real.log (((total_documents : ℝ) - (df : ℝ) + 0.5) / ((df : ℝ) + 0.5) + 1)

/-- `calculate_bm25_score` of candidate_level_BM25_lablog.py.  The query is
given as its externally preprocessed term list; the constants `k1 = 1.5`
and `b = 0.75` (the Python defaults, never overridden) are passed
explicitly. -/
noncomputable def calculate_bm25_score (query_terms : List String)
    (document : List String) (term_frequencies : String → ℕ)
    (total_documents : ℕ) (avg_doc_length : ℝ) (k1 b : ℝ) : ℝ :=
  let words := document
  let doc_length := words.length
  query_terms.foldl
    (fun score term =>
      let term_frequency := words.count term
      if term_frequency = 0 then score
      else
        score + bm25_idf total_documents (term_frequencies term) *
          ((term_frequency : ℝ) * (k1 + 1)) /
          ((term_frequency : ℝ) +
            k1 * (1 - b + b * ((doc_length : ℝ) / avg_doc_length))))
    0

/-- `load_and_aggregate_data`: group the answer texts by expert. -/
def load_and_aggregate_data (data : Corpus) : ExpertAnswers :=
  (allAnswers data).foldl (fun m a => appendEntry m a.attorney_link a.answer_text) []

/-- The per-expert concatenated profiles
(`" ".join(answers)` for each expert). -/
def profilesOf (ea : ExpertAnswers) : List (List String) :=
  ea.map (fun p => p.2.flatten)

/-- `term_frequencies = Counter(all_words)` in `rank_experts_bm25`, where
`all_words` joins every profile text: the count of each token over the whole
collection. -/
def termFrequenciesOf (ea : ExpertAnswers) : String → ℕ :=
  fun t => (profilesOf ea).flatten.count t

/-- `avg_doc_length` of `rank_experts_bm25`: total profile token count over
the number of experts. -/
noncomputable def avg_doc_lengthOf (ea : ExpertAnswers) : ℝ :=
  (((profilesOf ea).map List.length).sum : ℝ) / (ea.length : ℝ)

/-- The unsorted `ranking` list built by the loop of `rank_experts_bm25`:
for each expert, the per-answer BM25 scores are summed and divided by the
number of answers (`expert_score / len(answers)`). -/
noncomputable def ranking_list (query_terms : List String) (ea : ExpertAnswers) :
    List (String × ℝ) :=
  ea.map (fun p =>
    (p.1,
      ((p.2.map (fun answer =>
        calculate_bm25_score query_terms answer (termFrequenciesOf ea)
          ea.length (avg_doc_lengthOf ea) 1.5 0.75)).sum) / (p.2.length : ℝ)))

/-- `rank_experts_bm25` of candidate_level_BM25_lablog.py. -/
noncomputable def rank_experts_bm25 (query_terms : List String) (ea : ExpertAnswers) :
    List (String × ℝ) :=
  sortDesc (ranking_list query_terms ea)

/-- Modelled from the spec: the candidate-level strategy as the spec words
it, one document per expert (the concatenation of all their answers), with
one BM25 score per expert emitted directly.  Used to compare against the
source behaviour above. -/
noncomputable def rank_experts_bm25_spec (query_terms : List String)
    (ea : ExpertAnswers) : List (String × ℝ) :=
  sortDesc (ea.map (fun p =>
    (p.1, calculate_bm25_score query_terms p.2.flatten (termFrequenciesOf ea)
      ea.length (avg_doc_lengthOf ea) 1.5 0.75)))

/-- `calculate_precision_at_k` of the candidate-level scripts.  The source
divides by `k` with no guard; at `k = 0` the Python call raises
`ZeroDivisionError`, modelled as `none`. -/
def calculate_precision_at_k {α : Type} (relevant_experts : List String)
    (ranking : List (String × α)) (k : ℕ) : Option ℚ :=
  let top_k := (ranking.take k).map Prod.fst
  let relevant_in_top_k := top_k.countP (fun e => relevant_experts.contains e)
  if k = 0 then none else some ((relevant_in_top_k : ℚ) / (k : ℚ))

/-- `calculate_map_mrr_and_precision` of the candidate-level scripts,
returning `(map_score, reciprocal_rank, p1, p2, p5)`.  The result is `none`
only if one of the three precision calls fails, which cannot happen since
they use `k = 1, 2, 5`. -/
def calculate_map_mrr_and_precision {α : Type} (relevant_experts : List String)
    (ranking : List (String × α)) : Option (ℚ × ℚ × ℚ × ℚ × ℚ) :=
  let st := apFold relevant_experts ranking 1 (0, 0, 0)
  let map_score := if relevant_experts.isEmpty then 0
    else st.1 / (relevant_experts.length : ℚ)
  match calculate_precision_at_k relevant_experts ranking 1,
      calculate_precision_at_k relevant_experts ranking 2,
      calculate_precision_at_k relevant_experts ranking 5 with
  | some p1, some p2, some p5 => some (map_score, st.2.1, p1, p2, p5)
  | _, _, _ => none

/-- One iteration of the `main` loop of candidate_level_BM25_lablog.py over
a tag: the query is never skipped; its metrics are added to the totals and
`num_queries` is always incremented.  The ranking strategy is abstracted as
the function `ranking_of`. -/
def mainStep {α : Type} (ground_truth : String → List String)
    (ranking_of : String → List (String × α)) (st : AggState) (tag : String) :
    AggState :=
  let relevant_experts := ground_truth tag
  let ranking := ranking_of tag
  match calculate_map_mrr_and_precision relevant_experts ranking with
  | some (m, r, p1, p2, p5) =>
    ⟨st.total_map + m, st.total_mrr + r, st.total_p1 + p1, st.total_p2 + p2,
      st.total_p5 + p5, st.num_queries + 1⟩
  | none => st

/-- The whole aggregation loop of `main` over the tag list. -/
def mainAggregate {α : Type} (ground_truth : String → List String)
    (ranking_of : String → List (String × α)) (tags : List String) : AggState :=
  tags.foldl (mainStep ground_truth ranking_of) initAgg

end CandBM25

namespace CandLM

/-- `calculate_p_t_d` of candidate_level_lm_lablog.py: term frequency inside
one answer, 0 for an empty answer. -/
def calculate_p_t_d (term : String) (document : List String) : ℚ :=
  if document.length > 0 then (document.count term : ℚ) / (document.length : ℚ) else 0

/-- `calculate_p_t`: collection probability of a term.  The source tests
`term in term_frequencies`; a counter built from a token list contains a key
exactly when its count is nonzero, so the test is modelled as
`term_frequencies term ≠ 0`. -/
def calculate_p_t (term : String) (term_frequencies : String → ℕ)
    (total_terms : ℕ) : ℚ :=
  if term_frequencies term ≠ 0 then (term_frequencies term : ℚ) / (total_terms : ℚ)
  else 0

/-- Python `expert_answers[expert_id]`.  In the source the key is always one
of the dict keys being iterated, so the default branch is never taken. -/
def docsOf (ea : ExpertAnswers) (expert_id : String) : List (List String) :=
  ((ea.find? (fun p => p.1 == expert_id)).map Prod.snd).getD []

/-- `calculate_lambda`: `n_ca` is the token count of the concatenated
profile `" ".join(expert_answers[expert_id])`. -/
def calculate_lambda (expert_id : String) (ea : ExpertAnswers) (beta : ℚ) : ℚ :=
  let n_ca := (docsOf ea expert_id).flatten.length
  (n_ca : ℚ) / ((n_ca : ℚ) + beta)

/-- `calculate_expert_score`: background plus foreground probability of one
query term for one expert.  The call to `calculate_lambda` uses the Python
default `beta = 1500`. -/
def calculate_expert_score (term : String) (expert_id : String)
    (ea : ExpertAnswers) (term_frequencies : String → ℕ) (total_terms : ℕ) : ℚ :=
  let p_t := calculate_p_t term term_frequencies total_terms
  let lambda_value := calculate_lambda expert_id ea 1500
  let background_score := lambda_value * p_t
  let foreground_score :=
    ((docsOf ea expert_id).map
      (fun document => (1 - lambda_value) * calculate_p_t_d term document)).sum
  background_score + foreground_score

/-- `calculate_query_score`: multiplicative combination over the query
terms (given as the externally lower-cased and split term list); a zero
term score multiplies the total by the floor constant `1e-10` instead. -/
def calculate_query_score (query_terms : List String) (expert_id : String)
    (ea : ExpertAnswers) (term_frequencies : String → ℕ) (total_terms : ℕ) : ℚ :=
  query_terms.foldl
    (fun total_score term =>
      let score := calculate_expert_score term expert_id ea term_frequencies total_terms
      if score = 0 then total_score * smallFloor else total_score * score)
    1

/-- `term_frequencies = Counter(all_words)` of `rank_experts`. -/
def termFrequenciesOf (ea : ExpertAnswers) : String → ℕ :=
  fun t => (ea.map (fun p => p.2.flatten)).flatten.count t

/-- `total_terms = sum(term_frequencies.values())`, which equals the total
token count of the collection. -/
def totalTermsOf (ea : ExpertAnswers) : ℕ :=
  (ea.map (fun p => p.2.flatten)).flatten.length

/-- The unsorted `ranking` list built by the loop of `rank_experts`. -/
def ranking_list (query_terms : List String) (ea : ExpertAnswers) :
    List (String × ℚ) :=
  ea.map (fun p =>
    (p.1, calculate_query_score query_terms p.1 ea (termFrequenciesOf ea) (totalTermsOf ea)))

/-- `rank_experts` of candidate_level_lm_lablog.py. -/
def rank_experts (query_terms : List String) (ea : ExpertAnswers) :
    List (String × ℚ) :=
  sortDesc (ranking_list query_terms ea)

/-- `calculate_precision_at_k` of candidate_level_lm_lablog.py, an identical
copy of the one in candidate_level_BM25_lablog.py. -/
abbrev calculate_precision_at_k := @CandBM25.calculate_precision_at_k

/-- `calculate_map_mrr_and_precision` of candidate_level_lm_lablog.py, an
identical copy of the one in candidate_level_BM25_lablog.py. -/
abbrev calculate_map_mrr_and_precision := @CandBM25.calculate_map_mrr_and_precision

/-- One iteration of the `main` loop of candidate_level_lm_lablog.py, an
identical aggregation structure to candidate_level_BM25_lablog.py: queries
are never skipped. -/
abbrev mainStep := @CandBM25.mainStep

/-- The aggregation loop of `main` of candidate_level_lm_lablog.py. -/
abbrev mainAggregate := @CandBM25.mainAggregate

end CandLM

namespace DocBM25

/-- `calculate_bm25_score` of document_level_BM25_lablog.py, an identical
copy of the one in candidate_level_BM25_lablog.py (the query again given as
its externally preprocessed term list). -/
noncomputable abbrev calculate_bm25_score := @CandBM25.calculate_bm25_score

/-- `load_and_calculate_statistics` of document_level_BM25_lablog.py,
returning `(document_term_frequencies, total_terms, total_answers)`.  Each
answer is preprocessed by the external function `pp` (`preprocess_text` in
the source) before being counted. -/
def load_and_calculate_statistics (pp : List String → List String)
    (data : Corpus) : (String → ℕ) × ℕ × ℕ :=
  (allAnswers data).foldl
    (fun st a =>
      let words := pp a.answer_text
      (fun t => st.1 t + words.count t, st.2.1 + words.length, st.2.2 + 1))
    (fun _ => 0, 0, 0)

/-- The unsorted `expert_ranking` list of `rank_experts_doc_level_bm25`:
per-answer BM25 scores grouped by expert, then averaged
(`avg_score = sum(scores) / len(scores)`). -/
noncomputable def expert_ranking (query_terms : List String) (data : Corpus)
    (term_frequencies : String → ℕ) (total_documents : ℕ)
    (avg_doc_length : ℝ) : List (String × ℝ) :=
  (groupScores
      (fun a => calculate_bm25_score query_terms a.answer_text term_frequencies
        total_documents avg_doc_length 1.5 0.75) data).map
    (fun p => (p.1, p.2.sum / (p.2.length : ℝ)))

/-- `rank_experts_doc_level_bm25` of document_level_BM25_lablog.py.  The
`total_terms` argument is accepted and unused, exactly as in the source. -/
noncomputable def rank_experts_doc_level_bm25 (query_terms : List String)
    (data : Corpus) (term_frequencies : String → ℕ) (total_terms : ℕ)
    (total_documents : ℕ) (avg_doc_length : ℝ) : List (String × ℝ) :=
  sortDesc (expert_ranking query_terms data term_frequencies total_documents avg_doc_length)

/-- `calculate_precision_at_k` of the document-level scripts: unlike the
candidate-level copies, it guards `k = 0` and returns `0` there
(`return relevant_in_top_k / k if k > 0 else 0`). -/
def calculate_precision_at_k {α : Type} (relevant_experts : List String)
    (ranking : List (String × α)) (k : ℕ) : ℚ :=
  let top_k := (ranking.take k).map Prod.fst
  let relevant_in_top_k := top_k.countP (fun e => relevant_experts.contains e)
  if k > 0 then (relevant_in_top_k : ℚ) / (k : ℚ) else 0

/-- `calculate_map_mrr_and_precision` of the document-level scripts,
returning `(map_score, reciprocal_rank, p1, p2, p5)`. -/
def calculate_map_mrr_and_precision {α : Type} (relevant_experts : List String)
    (ranking : List (String × α)) : ℚ × ℚ × ℚ × ℚ × ℚ :=
  let st := apFold relevant_experts ranking 1 (0, 0, 0)
  let map_score := if relevant_experts.isEmpty then 0
    else st.1 / (relevant_experts.length : ℚ)
  (map_score, st.2.1,
    calculate_precision_at_k relevant_experts ranking 1,
    calculate_precision_at_k relevant_experts ranking 2,
    calculate_precision_at_k relevant_experts ranking 5)

/-- One iteration of the `main` loop of document_level_BM25_lablog.py over a
tag: a query with an empty relevant set is skipped
(`if not relevant_experts: continue`), otherwise the metrics are added and
`num_queries` incremented. -/
def mainStep {α : Type} (ground_truth : String → List String)
    (ranking_of : String → List (String × α)) (st : AggState) (tag : String) :
    AggState :=
  let relevant_experts := ground_truth tag
  if relevant_experts.isEmpty then st
  else
    let m := calculate_map_mrr_and_precision relevant_experts (ranking_of tag)
    ⟨st.total_map + m.1, st.total_mrr + m.2.1, st.total_p1 + m.2.2.1,
      st.total_p2 + m.2.2.2.1, st.total_p5 + m.2.2.2.2, st.num_queries + 1⟩

/-- The aggregation loop of `main` of document_level_BM25_lablog.py over the
valid tag list. -/
def mainAggregate {α : Type} (ground_truth : String → List String)
    (ranking_of : String → List (String × α)) (tags : List String) : AggState :=
  tags.foldl (mainStep ground_truth ranking_of) initAgg

end DocBM25

namespace DocLM

/-- `calculate_lambda_doc_level` of document_level_lm_balog.py. -/
def calculate_lambda_doc_level (doc_length : ℕ) (beta : ℚ) : ℚ :=
  beta / (beta + (doc_length : ℚ))

/-- `calculate_p_tc`: collection probability
`term_frequencies.get(term, 0) / total_terms`. -/
def calculate_p_tc (term : String) (term_frequencies : String → ℕ)
    (total_terms : ℕ) : ℚ :=
  (term_frequencies term : ℚ) / (total_terms : ℚ)

/-- `calculate_document_score`: product over the query terms (the source
iterates `query.split()`) of
`(1 - lambda) * p_td + lambda * p_tc + 1e-10`. -/
def calculate_document_score (query_terms : List String) (document : List String)
    (term_frequencies : String → ℕ) (total_terms : ℕ) (beta : ℚ) : ℚ :=
  let words := document
  let doc_length := words.length
  let lambda_doc_level := calculate_lambda_doc_level doc_length beta
  query_terms.foldl
    (fun score term =>
      let p_tc := calculate_p_tc term term_frequencies total_terms
      let p_td := if doc_length > 0 then (words.count term : ℚ) / (doc_length : ℚ) else 0
      score * ((1 - lambda_doc_level) * p_td + lambda_doc_level * p_tc + smallFloor))
    1

/-- `load_and_calculate_statistics` of document_level_lm_balog.py: the same
accumulation as in document_level_BM25_lablog.py but over the raw
`text.split()` tokens, with no preprocessing. -/
def load_and_calculate_statistics (data : Corpus) : (String → ℕ) × ℕ × ℕ :=
  (allAnswers data).foldl
    (fun st a =>
      let words := a.answer_text
      (fun t => st.1 t + words.count t, st.2.1 + words.length, st.2.2 + 1))
    (fun _ => 0, 0, 0)

/-- The unsorted `expert_ranking` list of `rank_experts_doc_level`:
per-answer document scores grouped by expert, then averaged. -/
def expert_ranking (query_terms : List String) (data : Corpus)
    (term_frequencies : String → ℕ) (total_terms : ℕ) (beta : ℚ) :
    List (String × ℚ) :=
  (groupScores
      (fun a => calculate_document_score query_terms a.answer_text
        term_frequencies total_terms beta) data).map
    (fun p => (p.1, p.2.sum / (p.2.length : ℚ)))

/-- `rank_experts_doc_level` of document_level_lm_balog.py. -/
def rank_experts_doc_level (query_terms : List String) (data : Corpus)
    (term_frequencies : String → ℕ) (total_terms : ℕ) (beta : ℚ) :
    List (String × ℚ) :=
  sortDesc (expert_ranking query_terms data term_frequencies total_terms beta)

/-- `calculate_precision_at_k` of document_level_lm_balog.py, an identical
copy of the one in document_level_BM25_lablog.py (with the `k > 0` guard). -/
abbrev calculate_precision_at_k := @DocBM25.calculate_precision_at_k

/-- `calculate_map_mrr_and_precision` of document_level_lm_balog.py, an
identical copy of the one in document_level_BM25_lablog.py. -/
abbrev calculate_map_mrr_and_precision := @DocBM25.calculate_map_mrr_and_precision

/-- One iteration of the `main` loop of document_level_lm_balog.py, with the
same skip of empty relevant sets as document_level_BM25_lablog.py. -/
abbrev mainStep := @DocBM25.mainStep

/-- The aggregation loop of `main` of document_level_lm_balog.py. -/
abbrev mainAggregate := @DocBM25.mainAggregate

end DocLM

/-- One line of selection_tags_lawyers_experts.json. -/
structure SelectionRecord where
  tagID : String
  lawyerID : String
  expert : Bool
deriving DecidableEq

namespace GroundTruth

/-- The `experts_by_tag` table built by `load_ground_truth_files` (identical
in all four scripts): every record with `expert` true appends its lawyer id
to the list of its tag id. -/
def load_experts_by_tag (records : List SelectionRecord) :
    List (String × List String) :=
  records.foldl
    (fun m r => if r.expert then appendEntry m r.tagID r.lawyerID else m) []

/-- `calculate_ground_truth` (identical in all four scripts): resolve the
tag name through `tag_to_id`; an unknown tag name gives `[]`, and
`experts_by_tag.get(tag_id, [])` gives `[]` for a tag id with no entry. -/
def calculate_ground_truth (tag_to_id : String → Option String)
    (experts_by_tag : List (String × List String)) (category : String) :
    List String :=
  match tag_to_id category with
  | none => []
  | some tag_id => lookupList experts_by_tag tag_id

end GroundTruth

/-- A one-question corpus with a single empty-text answer by expert E1,
used to evaluate the rankers on concrete input. -/
def corpusW : Corpus :=
  [(("q1" : String), (⟨[], [⟨("E1"), ([] : List String)⟩]⟩ : Question))]

/-- The all-zero counter, used as concrete term statistics. -/
def zeroTf : String → ℕ := fun _ => 0

/-! ### Lemmas about the stable descending sort -/

section SortLemmas

variable {α : Type} [LinearOrder α]

theorem geScore_transitive : Transitive (@geScore α _) :=
  fun _ _ _ hab hbc => le_trans hbc hab

theorem insertDesc_perm (p : String × α) (l : List (String × α)) :
    List.Perm (insertDesc p l) (p :: l) := by
  induction l with
  | nil => simp [insertDesc]
  | cons q rest ih =>
    by_cases h : p.2 ≤ q.2
    · simp only [insertDesc, if_pos h]
      exact (ih.cons q).trans (List.Perm.swap p q rest)
    · simp [insertDesc, if_neg h]

theorem foldl_insertDesc_perm (l acc : List (String × α)) :
    List.Perm (l.foldl (fun acc p => insertDesc p acc) acc) (l ++ acc) := by
  induction l generalizing acc with
  | nil => simp
  | cons x l ih =>
    simp only [List.foldl_cons, List.cons_append]
    exact (ih (insertDesc x acc)).trans
      (((insertDesc_perm x acc).append_left l).trans List.perm_middle)

theorem sortDesc_perm (l : List (String × α)) : List.Perm (sortDesc l) l := by
  simpa using foldl_insertDesc_perm l []

theorem insertDesc_chain (p : String × α) (l : List (String × α))
    (h : List.Chain' geScore l) : List.Chain' geScore (insertDesc p l) := by
  induction l with
  | nil => simp [insertDesc, List.chain'_singleton]
  | cons q rest ih =>
    by_cases hpq : p.2 ≤ q.2
    · simp only [insertDesc, if_pos hpq]
      rcases List.chain'_cons'.mp h with ⟨hhead, htail⟩
      refine List.chain'_cons'.mpr ⟨?_, ih htail⟩
      intro x hx
      cases rest with
      | nil =>
        simp only [insertDesc, List.head?_cons, Option.mem_def, Option.some.injEq] at hx
        subst hx
        exact hpq
      | cons y t =>
        by_cases hpy : p.2 ≤ y.2
        · simp only [insertDesc, if_pos hpy, List.head?_cons, Option.mem_def,
            Option.some.injEq] at hx
          subst hx
          exact hhead y rfl
        · simp only [insertDesc, if_neg hpy, List.head?_cons, Option.mem_def,
            Option.some.injEq] at hx
          subst hx
          exact hpq
    · simp only [insertDesc, if_neg hpq]
      exact List.chain'_cons.mpr ⟨le_of_not_le hpq, h⟩

theorem foldl_insertDesc_chain (l acc : List (String × α))
    (h : List.Chain' geScore acc) :
    List.Chain' geScore (l.foldl (fun acc p => insertDesc p acc) acc) := by
  induction l generalizing acc with
  | nil => simpa
  | cons x l ih => exact ih (insertDesc x acc) (insertDesc_chain x acc h)

theorem sortDesc_chain (l : List (String × α)) :
    List.Chain' geScore (sortDesc l) :=
  foldl_insertDesc_chain l [] (by simp)

theorem insertDesc_filter (p : String × α) (l : List (String × α))
    (h : List.Chain' geScore l) (s : α) :
    (insertDesc p l).filter (fun q => q.2 = s) =
      l.filter (fun q => q.2 = s) ++ (if p.2 = s then [p] else []) := by
  induction l with
  | nil =>
    simp only [insertDesc, List.filter_cons, List.filter_nil, List.nil_append]
    split <;> simp_all
  | cons q rest ih =>
    by_cases hpq : p.2 ≤ q.2
    · rcases List.chain'_cons'.mp h with ⟨hhead, htail⟩
      simp only [insertDesc, if_pos hpq, List.filter_cons]
      rw [ih htail]
      by_cases hqs : q.2 = s <;> simp [hqs]
    · have hqp : q.2 < p.2 := not_le.mp hpq
      simp only [insertDesc, if_neg hpq, List.filter_cons]
      by_cases hps : p.2 = s
      · have hall : (q :: rest).filter (fun x => x.2 = s) = [] := by
          refine List.filter_eq_nil_iff.mpr ?_
          intro x hx
          have hxq : x.2 ≤ q.2 := by
            rcases List.mem_cons.mp hx with hx | hx
            · subst hx; exact le_refl _
            · haveI : IsTrans (String × α) geScore :=
                ⟨fun _ _ _ hab hbc => le_trans hbc hab⟩
              have hpw := List.chain'_iff_pairwise.mp h
              exact (List.pairwise_cons.mp hpw).1 x hx
          have : x.2 < p.2 := lt_of_le_of_lt hxq hqp
          simp only [decide_eq_true_eq]
          intro hxs
          exact absurd hps (by rw [← hxs]; exact ne_of_gt this)
        simp only [List.filter_cons] at hall
        by_cases hqs : q.2 = s
        · simp [hqs] at hall
        · rw [if_neg (by simp [hqs])] at hall
          simp [hps, hqs, hall]
      · by_cases hqs : q.2 = s <;> simp [hps, hqs]

theorem foldl_insertDesc_filter (l acc : List (String × α))
    (h : List.Chain' geScore acc) (s : α) :
    ((l.foldl (fun acc p => insertDesc p acc) acc).filter (fun q => q.2 = s)) =
      acc.filter (fun q => q.2 = s) ++ l.filter (fun q => q.2 = s) := by
  induction l generalizing acc with
  | nil => simp
  | cons x l ih =>
    simp only [List.foldl_cons, List.filter_cons]
    rw [ih (insertDesc x acc) (insertDesc_chain x acc h),
      insertDesc_filter x acc h s]
    by_cases hxs : x.2 = s <;> simp [hxs]

theorem sortDesc_filter (l : List (String × α)) (s : α) :
    (sortDesc l).filter (fun q => q.2 = s) = l.filter (fun q => q.2 = s) := by
  simpa using foldl_insertDesc_filter l [] (by simp) s

end SortLemmas

/-! ### Lemmas about the dict-of-lists grouping -/

section GroupLemmas

variable {α : Type}

theorem findEntry_map_update (m : List (String × List α)) (eid : String) (s : α) :
    findEntry (m.map (fun p => if p.1 == eid then (p.1, p.2 ++ [s]) else p)) eid =
      (findEntry m eid).map (fun p => (p.1, p.2 ++ [s])) := by
  induction m with
  | nil => rfl
  | cons x m ih =>
    cases hx : (x.1 == eid) with
    | true => simp [findEntry, List.find?, hx]
    | false =>
      simp only [findEntry, List.map_cons] at ih ⊢
      rw [if_neg (by simp [hx])]
      simp only [List.find?, hx]
      exact ih

theorem findEntry_none_of_not_any (m : List (String × List α)) (eid : String)
    (h : m.any (fun p => p.1 == eid) = false) : findEntry m eid = none := by
  refine List.find?_eq_none.mpr ?_
  intro p hp
  exact (List.any_eq_false.mp h) p hp

theorem appendEntry_findEntry_self (m : List (String × List α)) (eid : String) (s : α) :
    findEntry (appendEntry m eid s) eid = some (eid, lookupList m eid ++ [s]) := by
  cases hany : m.any (fun p => p.1 == eid) with
  | true =>
    rw [appendEntry, if_pos (by simp [hany]), findEntry_map_update]
    rcases hfind : findEntry m eid with _ | y
    · rcases List.any_eq_true.mp hany with ⟨x, hx, hpx⟩
      have := List.find?_eq_none.mp (by rw [findEntry] at hfind; exact hfind) x hx
      exact absurd hpx this
    · have hfind2 : List.find? (fun p => p.1 == eid) m = some y := by
        rw [findEntry] at hfind; exact hfind
      have hy := List.find?_some hfind2
      have hyeq : y.1 = eid := by simpa using hy
      simp [lookupList, hfind, hyeq]
  | false =>
    rw [appendEntry, if_neg (by simp [hany]), lookupList,
      findEntry_none_of_not_any m eid hany]
    rw [findEntry, List.find?_append]
    rw [show List.find? (fun p => p.1 == eid) m = none from
      findEntry_none_of_not_any m eid hany]
    simp [List.find?]

theorem appendEntry_findEntry_ne (m : List (String × List α)) (eid eid2 : String)
    (s : α) (h : eid2 ≠ eid) :
    findEntry (appendEntry m eid s) eid2 = findEntry m eid2 := by
  cases hany : m.any (fun p => p.1 == eid) with
  | true =>
    rw [appendEntry, if_pos (by simp [hany])]
    clear hany
    induction m with
    | nil => rfl
    | cons x m ih =>
      cases hx : (x.1 == eid) with
      | true =>
        have hxeq : x.1 = eid := by simpa using hx
        have hx2 : (x.1 == eid2) = false := by
          rw [hxeq]
          exact beq_eq_false_iff_ne.mpr (fun hh => h hh.symm)
        simp only [findEntry, List.map_cons] at ih ⊢
        rw [if_pos (by simp [hx])]
        simp only [List.find?, hx2]
        simpa using ih
      | false =>
        simp only [findEntry, List.map_cons] at ih ⊢
        rw [if_neg (by simp [hx])]
        cases hx2 : (x.1 == eid2) with
        | true => simp [List.find?, hx2]
        | false =>
          simp only [List.find?, hx2]
          exact ih
  | false =>
    rw [appendEntry, if_neg (by simp [hany]), findEntry, List.find?_append]
    have hlast : List.find? (fun p => p.1 == eid2) [(eid, [s])] = none := by
      have hb : (eid == eid2) = false := beq_eq_false_iff_ne.mpr (fun hh => h hh.symm)
      simp [List.find?, hb]
    rw [hlast, findEntry]
    cases List.find? (fun p => p.1 == eid2) m <;> rfl

theorem appendEntry_lookup_self (m : List (String × List α)) (eid : String) (s : α) :
    lookupList (appendEntry m eid s) eid = lookupList m eid ++ [s] := by
  rw [lookupList, appendEntry_findEntry_self]
  rfl

theorem appendEntry_lookup_ne (m : List (String × List α)) (eid eid2 : String)
    (s : α) (h : eid2 ≠ eid) :
    lookupList (appendEntry m eid s) eid2 = lookupList m eid2 := by
  rw [lookupList, appendEntry_findEntry_ne m eid eid2 s h, lookupList]

end GroupLemmas

/-! ### The grouping fold of the document-level scripts -/

section FoldGroup

variable {α : Type} (f : Answer → α)

theorem foldl_group_lookup (answers : List Answer)
    (m : List (String × List α)) (eid : String) :
    lookupList (answers.foldl (fun m a => appendEntry m a.attorney_link (f a)) m) eid =
      lookupList m eid ++ (answers.filter (fun a => a.attorney_link == eid)).map f := by
  induction answers generalizing m with
  | nil => simp
  | cons a answers ih =>
    simp only [List.foldl_cons, List.filter_cons]
    cases ha : (a.attorney_link == eid) with
    | true =>
      have haeq : a.attorney_link = eid := by simpa using ha
      rw [ih, haeq, appendEntry_lookup_self]
      simp
    | false =>
      have hane : eid ≠ a.attorney_link := by
        intro hh
        rw [hh] at ha
        simpa using ha
      rw [ih, appendEntry_lookup_ne _ _ _ _ hane]
      simp

theorem appendEntry_keys_of_any (m : List (String × List α)) (eid : String) (s : α)
    (hany : m.any (fun p => p.1 == eid) = true) :
    (appendEntry m eid s).map Prod.fst = m.map Prod.fst := by
  rw [appendEntry, if_pos (by simp [hany]), List.map_map]
  refine List.map_congr_left ?_
  intro p _
  by_cases hx : p.1 = eid <;> simp [hx]

theorem appendEntry_keys_of_not_any (m : List (String × List α)) (eid : String) (s : α)
    (hany : m.any (fun p => p.1 == eid) = false) :
    (appendEntry m eid s).map Prod.fst = m.map Prod.fst ++ [eid] := by
  rw [appendEntry, if_neg (by simp [hany]), List.map_append]
  rfl

theorem appendEntry_keys_nodup (m : List (String × List α)) (eid : String) (s : α)
    (h : (m.map Prod.fst).Nodup) : ((appendEntry m eid s).map Prod.fst).Nodup := by
  cases hany : m.any (fun p => p.1 == eid) with
  | true => rw [appendEntry_keys_of_any m eid s hany]; exact h
  | false =>
    rw [appendEntry_keys_of_not_any m eid s hany]
    refine h.append (List.nodup_singleton eid) ?_
    intro x hx hx2
    rcases List.mem_map.mp hx with ⟨p, hp, hpx⟩
    have := (List.any_eq_false.mp hany) p hp
    have hxe : x = eid := by simpa using hx2
    exact this (by rw [hpx, hxe]; simp)

theorem appendEntry_keys_subset (m : List (String × List α)) (eid : String) (s : α)
    (x : String) (hx : x ∈ (appendEntry m eid s).map Prod.fst) :
    x ∈ m.map Prod.fst ∨ x = eid := by
  cases hany : m.any (fun p => p.1 == eid) with
  | true =>
    rw [appendEntry_keys_of_any m eid s hany] at hx
    exact Or.inl hx
  | false =>
    rw [appendEntry_keys_of_not_any m eid s hany] at hx
    rcases List.mem_append.mp hx with hx | hx
    · exact Or.inl hx
    · exact Or.inr (by simpa using hx)

theorem foldl_group_keys_nodup (answers : List Answer) (m : List (String × List α))
    (h : (m.map Prod.fst).Nodup) :
    ((answers.foldl (fun m a => appendEntry m a.attorney_link (f a)) m).map Prod.fst).Nodup := by
  induction answers generalizing m with
  | nil => simpa
  | cons a answers ih =>
    exact ih _ (appendEntry_keys_nodup m a.attorney_link (f a) h)

theorem foldl_group_keys_origin (answers : List Answer) (m : List (String × List α))
    (x : String)
    (hx : x ∈ (answers.foldl (fun m a => appendEntry m a.attorney_link (f a)) m).map Prod.fst) :
    x ∈ m.map Prod.fst ∨ x ∈ answers.map Answer.attorney_link := by
  induction answers generalizing m with
  | nil => exact Or.inl hx
  | cons a answers ih =>
    rcases ih (appendEntry m a.attorney_link (f a)) hx with h | h
    · rcases appendEntry_keys_subset m a.attorney_link (f a) x h with h2 | h2
      · exact Or.inl h2
      · exact Or.inr (by simp [h2])
    · exact Or.inr (List.mem_cons_of_mem _ h)

theorem findEntry_of_mem_nodup (m : List (String × List α)) (p : String × List α)
    (hnd : (m.map Prod.fst).Nodup) (hp : p ∈ m) : findEntry m p.1 = some p := by
  induction m with
  | nil => cases hp
  | cons q m ih =>
    rcases List.mem_cons.mp hp with rfl | hp2
    · rw [findEntry, List.find?_cons_of_pos _ (by simp)]
    · rw [List.map_cons] at hnd
      have hnd2 := List.nodup_cons.mp hnd
      have hq : (q.1 == p.1) = false := by
        refine beq_eq_false_iff_ne.mpr ?_
        intro hh
        exact hnd2.1 (hh ▸ List.mem_map_of_mem Prod.fst hp2)
      rw [findEntry, List.find?_cons_of_neg _ (by simp [hq])]
      exact ih hnd2.2 hp2

theorem groupScores_mem_char (data : Corpus) (p : String × List α)
    (hp : p ∈ groupScores f data) :
    p.2 = ((allAnswers data).filter (fun a => a.attorney_link == p.1)).map f ∧
      p.2 ≠ [] := by
  have hnd : ((groupScores f data).map Prod.fst).Nodup :=
    foldl_group_keys_nodup f (allAnswers data) [] (by simp)
  have hfind := findEntry_of_mem_nodup (groupScores f data) p hnd hp
  have hlook : lookupList (groupScores f data) p.1 = p.2 := by
    rw [lookupList, hfind]
    rfl
  have hchar := foldl_group_lookup f (allAnswers data) [] p.1
  rw [show ((allAnswers data).foldl
      (fun m a => appendEntry m a.attorney_link (f a)) [] : List (String × List α)) =
      groupScores f data from rfl, hlook] at hchar
  have hlz : lookupList ([] : List (String × List α)) p.1 = [] := rfl
  rw [hlz, List.nil_append] at hchar
  have hkey : p.1 ∈ (allAnswers data).map Answer.attorney_link := by
    rcases foldl_group_keys_origin f (allAnswers data) [] p.1
      (List.mem_map_of_mem Prod.fst hp) with h | h
    · simp at h
    · exact h
  refine ⟨hchar, ?_⟩
  rcases List.mem_map.mp hkey with ⟨a, ha, haeq⟩
  have hmem : a ∈ (allAnswers data).filter (fun a => a.attorney_link == p.1) :=
    List.mem_filter.mpr ⟨ha, by simp [haeq]⟩
  intro hemp
  rw [hemp] at hchar
  have hfil : (allAnswers data).filter (fun a => a.attorney_link == p.1) = [] :=
    List.map_eq_nil_iff.mp hchar.symm
  rw [hfil] at hmem
  cases hmem

end FoldGroup

/-! ### Metric lemmas -/

section MetricLemmas

theorem apFold_nil_relevant {α : Type} (ranking : List (String × α)) (rank : ℕ)
    (st : ℚ × ℚ × ℕ) : apFold [] ranking rank st = st := by
  induction ranking generalizing rank st with
  | nil => rfl
  | cons p rest ih =>
    rcases st with ⟨ap, rr, found⟩
    rw [apFold, if_neg (by simp)]
    exact ih (rank + 1) (ap, rr, found)

theorem cand_precision_nil_relevant {α : Type} (ranking : List (String × α))
    (k : ℕ) (hk : k ≠ 0) :
    CandBM25.calculate_precision_at_k [] ranking k = some 0 := by
  rw [CandBM25.calculate_precision_at_k]
  simp [hk]

theorem cand_metrics_nil_relevant {α : Type} (ranking : List (String × α)) :
    CandBM25.calculate_map_mrr_and_precision [] ranking = some (0, 0, 0, 0, 0) := by
  rw [CandBM25.calculate_map_mrr_and_precision]
  rw [cand_precision_nil_relevant ranking 1 (by simp),
    cand_precision_nil_relevant ranking 2 (by simp),
    cand_precision_nil_relevant ranking 5 (by simp),
    apFold_nil_relevant]
  simp

end MetricLemmas

/-! ### Claim theorems about the evaluation metrics and the main loops -/

/-- Claim C4 (amended): at `k = 0` the candidate-level
`calculate_precision_at_k` fails with a division by zero (modelled as
`none`), for every relevant set and ranking, while the document-level
`calculate_precision_at_k` guards `k = 0` and returns the ordinary value
`0` instead. -/
theorem precision_at_zero_split {α β : Type} (relevant_experts : List String)
    (ranking : List (String × α)) (ranking2 : List (String × β)) :
    CandBM25.calculate_precision_at_k relevant_experts ranking 0 = none ∧
    DocBM25.calculate_precision_at_k relevant_experts ranking2 0 = 0 := by
  constructor
  · rw [CandBM25.calculate_precision_at_k]
    simp
  · rw [DocBM25.calculate_precision_at_k]
    simp

/-- Counterexample to claim C4 as stated: the document-level
`calculate_precision_at_k` at `k = 0` does not fail; it returns the
ordinary numeric result `0`. -/
theorem doc_precision_at_zero_returns_zero :
    DocBM25.calculate_precision_at_k [("E1" : String)]
      [(("E1" : String), (1 : ℚ))] 0 = 0 := by
  rw [DocBM25.calculate_precision_at_k]
  simp

/-- Claim C5: for relevant set E1, E3 and the ranking E2, E1, E4, E3, E5
with arbitrary scores, the metrics are MAP = 1/2, MRR = 1/2, P at 1 = 0,
P at 2 = 1/2, P at 5 = 2/5. -/
theorem metrics_example_scenario (s1 s2 s3 s4 s5 : ℚ) :
    CandBM25.calculate_map_mrr_and_precision [("E1" : String), ("E3" : String)]
      [(("E2" : String), s1), (("E1" : String), s2), (("E4" : String), s3),
        (("E3" : String), s4), (("E5" : String), s5)] =
      some (1/2, 1/2, 0, 1/2, 2/5) := by
  simp [CandBM25.calculate_map_mrr_and_precision, apFold,
    CandBM25.calculate_precision_at_k]
  norm_num

/-- Claim C2 (amended): only the two document-level main loops skip a query
whose resolved relevant-expert set is empty; the two candidate-level main
loops do not skip it — they add 0 to every metric total and still increment
`num_queries`, so such queries do dilute the candidate-level averages. -/
theorem main_loop_empty_relevant_split {α : Type}
    (ground_truth : String → List String)
    (ranking_of : String → List (String × α)) (st : AggState) (tag : String)
    (h : ground_truth tag = []) :
    CandBM25.mainStep ground_truth ranking_of st tag =
      ⟨st.total_map, st.total_mrr, st.total_p1, st.total_p2, st.total_p5,
        st.num_queries + 1⟩ ∧
    CandLM.mainStep ground_truth ranking_of st tag =
      ⟨st.total_map, st.total_mrr, st.total_p1, st.total_p2, st.total_p5,
        st.num_queries + 1⟩ ∧
    DocBM25.mainStep ground_truth ranking_of st tag = st ∧
    DocLM.mainStep ground_truth ranking_of st tag = st := by
  obtain ⟨m1, m2, m3, m4, m5, n⟩ := st
  have hcand : CandBM25.mainStep ground_truth ranking_of ⟨m1, m2, m3, m4, m5, n⟩ tag =
      ⟨m1, m2, m3, m4, m5, n + 1⟩ := by
    rw [CandBM25.mainStep]
    simp only [h, cand_metrics_nil_relevant]
    simp
  have hdoc : DocBM25.mainStep ground_truth ranking_of ⟨m1, m2, m3, m4, m5, n⟩ tag =
      ⟨m1, m2, m3, m4, m5, n⟩ := by
    rw [DocBM25.mainStep]
    simp [h]
  exact ⟨hcand, hcand, hdoc, hdoc⟩

/-- Witness for the amended claim C2 at a concrete run: a query resolving to
an empty relevant set is counted by the candidate-level loop and skipped by
the document-level loop. -/
theorem main_loop_empty_relevant_split_witness :
    CandBM25.mainStep (fun _ => []) (fun _ => ([] : List (String × ℚ)))
      initAgg ("Divorce") = ⟨0, 0, 0, 0, 0, 1⟩ ∧
    DocBM25.mainStep (fun _ => []) (fun _ => ([] : List (String × ℚ)))
      initAgg ("Divorce") = initAgg := by
  obtain ⟨h1, _, h3, _⟩ := main_loop_empty_relevant_split (fun _ => [])
    (fun _ => ([] : List (String × ℚ))) initAgg ("Divorce") rfl
  exact ⟨h1, h3⟩

/-- Counterexample to claim C2 as stated: in the candidate-level BM25 main
loop, a query with an empty relevant set is not skipped; after processing
only that query, `num_queries` is 1, not 0. -/
theorem cand_main_counts_empty_relevant_query :
    (CandBM25.mainAggregate (fun _ => []) (fun _ => [(("E1" : String), (0 : ℚ))])
      [("Divorce")]).num_queries = 1 := by
  show (CandBM25.mainStep (fun _ => []) (fun _ => [(("E1" : String), (0 : ℚ))])
    initAgg ("Divorce")).num_queries = 1
  rw [CandBM25.mainStep]
  simp only [cand_metrics_nil_relevant]
  rfl

/-! ### Ground truth lemmas -/

theorem load_experts_lookup_no_match (records : List SelectionRecord)
    (m : List (String × List String)) (tid : String)
    (h : ∀ r ∈ records, r.tagID = tid → r.expert = false) :
    lookupList (records.foldl
      (fun m r => if r.expert then appendEntry m r.tagID r.lawyerID else m) m) tid =
      lookupList m tid := by
  induction records generalizing m with
  | nil => rfl
  | cons r records ih =>
    simp only [List.foldl_cons]
    cases hexp : r.expert with
    | false =>
      rw [if_neg (by simp [hexp])]
      exact ih m (fun x hx => h x (List.mem_cons_of_mem _ hx))
    | true =>
      rw [if_pos (by simp [hexp])]
      have hne : tid ≠ r.tagID := by
        intro hh
        have := h r (List.mem_cons_self r records) hh.symm
        rw [hexp] at this
        cases this
      rw [ih _ (fun x hx => h x (List.mem_cons_of_mem _ hx)),
        appendEntry_lookup_ne _ _ _ _ hne]

/-- Claim C9: under the external-judgment policy, a tag name that resolves
to no tag id, and a tag id for which no record is marked expert, both give
an empty relevant set from `calculate_ground_truth`, not an error. -/
theorem ground_truth_empty_when_missing (tag_to_id : String → Option String)
    (records : List SelectionRecord) (category : String) :
    (tag_to_id category = none →
      GroundTruth.calculate_ground_truth tag_to_id
        (GroundTruth.load_experts_by_tag records) category = []) ∧
    (∀ tid, tag_to_id category = some tid →
      (∀ r ∈ records, r.tagID = tid → r.expert = false) →
      GroundTruth.calculate_ground_truth tag_to_id
        (GroundTruth.load_experts_by_tag records) category = []) := by
  constructor
  · intro h
    rw [GroundTruth.calculate_ground_truth, h]
  · intro tid h hrec
    rw [GroundTruth.calculate_ground_truth, h]
    show lookupList (GroundTruth.load_experts_by_tag records) tid = []
    rw [GroundTruth.load_experts_by_tag,
      load_experts_lookup_no_match records [] tid hrec]
    rfl

/-- Witness for claim C9 at a concrete judgment table: an unknown tag name
and a tag id with only a non-expert record both give the empty set. -/
theorem ground_truth_empty_when_missing_witness :
    GroundTruth.calculate_ground_truth
      (fun c => if c = ("Divorce") then some ("7") else none)
      (GroundTruth.load_experts_by_tag [⟨("7"), ("L1"), false⟩]) ("Custody") = [] ∧
    GroundTruth.calculate_ground_truth
      (fun c => if c = ("Divorce") then some ("7") else none)
      (GroundTruth.load_experts_by_tag [⟨("7"), ("L1"), false⟩]) ("Divorce") = [] := by
  constructor
  · exact (ground_truth_empty_when_missing _ _ _).1 (by simp)
  · refine (ground_truth_empty_when_missing _ _ _).2 ("7") (by simp) ?_
    intro r hr _
    rw [List.mem_singleton] at hr
    subst hr
    rfl

/-! ### Candidate-level language model lemmas -/

theorem foldl_mul_floor_eq_prod {β : Type} (g : β → ℚ) (l : List β) (a : ℚ) :
    l.foldl (fun acc t => if g t = 0 then acc * smallFloor else acc * g t) a =
      a * (l.map (fun t => if g t = 0 then smallFloor else g t)).prod := by
  induction l generalizing a with
  | nil => simp
  | cons x l ih =>
    rw [List.foldl_cons, ih, List.map_cons, List.prod_cons]
    by_cases h : g x = 0 <;> simp [h, mul_assoc]

theorem candLM_p_t_d_nonneg (term : String) (document : List String) :
    0 ≤ CandLM.calculate_p_t_d term document := by
  rw [CandLM.calculate_p_t_d]
  split
  · exact div_nonneg (Nat.cast_nonneg _) (Nat.cast_nonneg _)
  · exact le_refl 0

theorem candLM_p_t_nonneg (term : String) (term_frequencies : String → ℕ)
    (total_terms : ℕ) : 0 ≤ CandLM.calculate_p_t term term_frequencies total_terms := by
  rw [CandLM.calculate_p_t]
  split
  · exact div_nonneg (Nat.cast_nonneg _) (Nat.cast_nonneg _)
  · exact le_refl 0

theorem candLM_lambda_nonneg (expert_id : String) (ea : ExpertAnswers) :
    0 ≤ CandLM.calculate_lambda expert_id ea 1500 := by
  rw [CandLM.calculate_lambda]
  positivity

theorem candLM_lambda_le_one (expert_id : String) (ea : ExpertAnswers) :
    CandLM.calculate_lambda expert_id ea 1500 ≤ 1 := by
  rw [CandLM.calculate_lambda]
  refine div_le_one_of_le₀ (by norm_num) (by positivity)

theorem candLM_expert_score_nonneg (term expert_id : String) (ea : ExpertAnswers)
    (term_frequencies : String → ℕ) (total_terms : ℕ) :
    0 ≤ CandLM.calculate_expert_score term expert_id ea term_frequencies total_terms := by
  rw [CandLM.calculate_expert_score]
  refine add_nonneg (mul_nonneg (candLM_lambda_nonneg expert_id ea)
    (candLM_p_t_nonneg term term_frequencies total_terms)) ?_
  refine List.sum_nonneg ?_
  intro x hx
  rcases List.mem_map.mp hx with ⟨d, _, rfl⟩
  exact mul_nonneg (sub_nonneg.mpr (candLM_lambda_le_one expert_id ea))
    (candLM_p_t_d_nonneg term d)

/-- Claim C6: the candidate-level language model computes
`P(t|e) = lambda * P(t|collection) + (1 - lambda) * sum of P(t|d)` with
`lambda = n(D_e)/(n(D_e)+1500)`; the query score is the product over the
query terms of `P(t|e)` with every zero factor replaced by the floor
`1e-10`, so the product is strictly positive. -/
theorem candLM_score_formula_and_floor (query_terms : List String)
    (term expert_id : String) (ea : ExpertAnswers)
    (term_frequencies : String → ℕ) (total_terms : ℕ) :
    CandLM.calculate_expert_score term expert_id ea term_frequencies total_terms =
      (((CandLM.docsOf ea expert_id).flatten.length : ℚ) /
          (((CandLM.docsOf ea expert_id).flatten.length : ℚ) + 1500)) *
        CandLM.calculate_p_t term term_frequencies total_terms +
      (1 - ((CandLM.docsOf ea expert_id).flatten.length : ℚ) /
          (((CandLM.docsOf ea expert_id).flatten.length : ℚ) + 1500)) *
        ((CandLM.docsOf ea expert_id).map
          (fun d => CandLM.calculate_p_t_d term d)).sum ∧
    CandLM.calculate_query_score query_terms expert_id ea term_frequencies total_terms =
      (query_terms.map (fun t =>
        if CandLM.calculate_expert_score t expert_id ea term_frequencies total_terms = 0
        then smallFloor
        else CandLM.calculate_expert_score t expert_id ea term_frequencies total_terms)).prod ∧
    0 < CandLM.calculate_query_score query_terms expert_id ea term_frequencies total_terms := by
  have hprod : CandLM.calculate_query_score query_terms expert_id ea
      term_frequencies total_terms =
      (query_terms.map (fun t =>
        if CandLM.calculate_expert_score t expert_id ea term_frequencies total_terms = 0
        then smallFloor
        else CandLM.calculate_expert_score t expert_id ea term_frequencies total_terms)).prod := by
    rw [CandLM.calculate_query_score]
    exact (foldl_mul_floor_eq_prod
      (fun t => CandLM.calculate_expert_score t expert_id ea term_frequencies total_terms)
      query_terms 1).trans (one_mul _)
  refine ⟨?_, hprod, ?_⟩
  · rw [CandLM.calculate_expert_score, CandLM.calculate_lambda]
    rw [List.sum_map_mul_left]
  · rw [hprod]
    refine List.prod_pos ?_
    intro x hx
    rcases List.mem_map.mp hx with ⟨t, _, rfl⟩
    by_cases h : CandLM.calculate_expert_score t expert_id ea term_frequencies total_terms = 0
    · rw [if_pos h]
      rw [smallFloor]
      norm_num
    · rw [if_neg h]
      exact lt_of_le_of_ne
        (candLM_expert_score_nonneg t expert_id ea term_frequencies total_terms)
        (Ne.symm h)

/-! ### Ranking invariants -/

/-- Claim C8: every ranking produced by one of the four strategies is the
stable descending sort of its unsorted score list: the scores are
monotonically non-increasing along the ranking, the ranking is a
permutation of the score list, and entries with equal scores keep their
original iteration order (so the output is deterministic given the input
order). -/
theorem rankings_sorted_stable :
    (∀ (query_terms : List String) (ea : ExpertAnswers),
      List.Chain' geScore (CandBM25.rank_experts_bm25 query_terms ea) ∧
      List.Perm (CandBM25.rank_experts_bm25 query_terms ea)
        (CandBM25.ranking_list query_terms ea) ∧
      ∀ s : ℝ, (CandBM25.rank_experts_bm25 query_terms ea).filter
          (fun p => p.2 = s) =
        (CandBM25.ranking_list query_terms ea).filter (fun p => p.2 = s)) ∧
    (∀ (query_terms : List String) (ea : ExpertAnswers),
      List.Chain' geScore (CandLM.rank_experts query_terms ea) ∧
      List.Perm (CandLM.rank_experts query_terms ea)
        (CandLM.ranking_list query_terms ea) ∧
      ∀ s : ℚ, (CandLM.rank_experts query_terms ea).filter (fun p => p.2 = s) =
        (CandLM.ranking_list query_terms ea).filter (fun p => p.2 = s)) ∧
    (∀ (query_terms : List String) (data : Corpus) (term_frequencies : String → ℕ)
        (total_terms total_documents : ℕ) (avg_doc_length : ℝ),
      List.Chain' geScore (DocBM25.rank_experts_doc_level_bm25 query_terms data
        term_frequencies total_terms total_documents avg_doc_length) ∧
      List.Perm (DocBM25.rank_experts_doc_level_bm25 query_terms data
          term_frequencies total_terms total_documents avg_doc_length)
        (DocBM25.expert_ranking query_terms data term_frequencies total_documents
          avg_doc_length) ∧
      ∀ s : ℝ, (DocBM25.rank_experts_doc_level_bm25 query_terms data
          term_frequencies total_terms total_documents avg_doc_length).filter
            (fun p => p.2 = s) =
        (DocBM25.expert_ranking query_terms data term_frequencies total_documents
          avg_doc_length).filter (fun p => p.2 = s)) ∧
    (∀ (query_terms : List String) (data : Corpus) (term_frequencies : String → ℕ)
        (total_terms : ℕ) (beta : ℚ),
      List.Chain' geScore (DocLM.rank_experts_doc_level query_terms data
        term_frequencies total_terms beta) ∧
      List.Perm (DocLM.rank_experts_doc_level query_terms data term_frequencies
          total_terms beta)
        (DocLM.expert_ranking query_terms data term_frequencies total_terms beta) ∧
      ∀ s : ℚ, (DocLM.rank_experts_doc_level query_terms data term_frequencies
          total_terms beta).filter (fun p => p.2 = s) =
        (DocLM.expert_ranking query_terms data term_frequencies total_terms
          beta).filter (fun p => p.2 = s)) := by
  refine ⟨fun qt ea => ?_, fun qt ea => ?_, fun qt d tf tt td av => ?_,
    fun qt d tf tt b => ?_⟩
  · exact ⟨sortDesc_chain _, sortDesc_perm _, fun s => sortDesc_filter _ s⟩
  · exact ⟨sortDesc_chain _, sortDesc_perm _, fun s => sortDesc_filter _ s⟩
  · exact ⟨sortDesc_chain _, sortDesc_perm _, fun s => sortDesc_filter _ s⟩
  · exact ⟨sortDesc_chain _, sortDesc_perm _, fun s => sortDesc_filter _ s⟩

/-- An entry of a sorted mean-aggregated grouping carries exactly the mean
of the scores of that expert's answers, and that score list is nonempty. -/
theorem rank_mean_char {α : Type} [LinearOrderedField α] (f : Answer → α)
    (data : Corpus) (e : String) (s : α)
    (h : (e, s) ∈ sortDesc ((groupScores f data).map
      (fun p => (p.1, p.2.sum / (p.2.length : α))))) :
    s = (((allAnswers data).filter (fun a => a.attorney_link == e)).map f).sum /
      (((((allAnswers data).filter (fun a => a.attorney_link == e)).map f).length : α)) ∧
    ((allAnswers data).filter (fun a => a.attorney_link == e)).map f ≠ [] := by
  rcases List.mem_map.mp ((sortDesc_perm _).mem_iff.mp h) with ⟨p, hp, heq⟩
  have he : p.1 = e := congrArg Prod.fst heq
  have hs : p.2.sum / (p.2.length : α) = s := congrArg Prod.snd heq
  rcases groupScores_mem_char f data p hp with ⟨hchar, hne⟩
  rw [he] at hchar
  constructor
  · rw [← hs, hchar]
  · rw [← hchar]
    exact hne

/-- Claim C7: in both document-level strategies (BM25 and language model)
the score emitted for an expert equals the arithmetic mean of that
expert's per-answer document scores. -/
theorem doc_level_score_is_mean_of_answer_scores :
    (∀ (query_terms : List String) (data : Corpus) (term_frequencies : String → ℕ)
        (total_terms total_documents : ℕ) (avg_doc_length : ℝ) (e : String) (s : ℝ),
      (e, s) ∈ DocBM25.rank_experts_doc_level_bm25 query_terms data
          term_frequencies total_terms total_documents avg_doc_length →
      s = (((allAnswers data).filter (fun a => a.attorney_link == e)).map
            (fun a => DocBM25.calculate_bm25_score query_terms a.answer_text
              term_frequencies total_documents avg_doc_length 1.5 0.75)).sum /
          (((((allAnswers data).filter (fun a => a.attorney_link == e)).map
            (fun a => DocBM25.calculate_bm25_score query_terms a.answer_text
              term_frequencies total_documents avg_doc_length 1.5 0.75)).length : ℝ))) ∧
    (∀ (query_terms : List String) (data : Corpus) (term_frequencies : String → ℕ)
        (total_terms : ℕ) (beta : ℚ) (e : String) (s : ℚ),
      (e, s) ∈ DocLM.rank_experts_doc_level query_terms data term_frequencies
          total_terms beta →
      s = (((allAnswers data).filter (fun a => a.attorney_link == e)).map
            (fun a => DocLM.calculate_document_score query_terms a.answer_text
              term_frequencies total_terms beta)).sum /
          (((((allAnswers data).filter (fun a => a.attorney_link == e)).map
            (fun a => DocLM.calculate_document_score query_terms a.answer_text
              term_frequencies total_terms beta)).length : ℚ))) := by
  constructor
  · intro qt d tf tt td av e s h
    exact (rank_mean_char
      (fun a => DocBM25.calculate_bm25_score qt a.answer_text tf td av 1.5 0.75)
      d e s h).1
  · intro qt d tf tt b e s h
    exact (rank_mean_char
      (fun a => DocLM.calculate_document_score qt a.answer_text tf tt b)
      d e s h).1

/-- Witness for claim C7 at the concrete one-answer corpus: for both
document-level strategies the emitted score of E1 equals the mean of the
per-answer scores. -/
theorem doc_level_score_is_mean_witness :
    ((("E1" : String), (0 : ℝ)) ∈ DocBM25.rank_experts_doc_level_bm25 []
      corpusW zeroTf 0 1 1) ∧
    (0 : ℝ) = (((allAnswers corpusW).filter (fun a => a.attorney_link == ("E1"))).map
        (fun a => DocBM25.calculate_bm25_score [] a.answer_text zeroTf 1 1 1.5 0.75)).sum /
      (((((allAnswers corpusW).filter (fun a => a.attorney_link == ("E1"))).map
        (fun a => DocBM25.calculate_bm25_score [] a.answer_text zeroTf 1 1 1.5 0.75)).length : ℝ)) ∧
    ((("E1" : String), (1 : ℚ)) ∈ DocLM.rank_experts_doc_level [] corpusW zeroTf 0 1) ∧
    (1 : ℚ) = (((allAnswers corpusW).filter (fun a => a.attorney_link == ("E1"))).map
        (fun a => DocLM.calculate_document_score [] a.answer_text zeroTf 0 1)).sum /
      (((((allAnswers corpusW).filter (fun a => a.attorney_link == ("E1"))).map
        (fun a => DocLM.calculate_document_score [] a.answer_text zeroTf 0 1)).length : ℚ)) := by
  have hm1 : (("E1" : String), (0 : ℝ)) ∈ DocBM25.rank_experts_doc_level_bm25 []
      corpusW zeroTf 0 1 1 := by
    simp [DocBM25.rank_experts_doc_level_bm25, DocBM25.expert_ranking, groupScores,
      allAnswers, appendEntry, sortDesc, insertDesc, CandBM25.calculate_bm25_score,
      corpusW]
  have hm2 : (("E1" : String), (1 : ℚ)) ∈ DocLM.rank_experts_doc_level []
      corpusW zeroTf 0 1 := by
    simp [DocLM.rank_experts_doc_level, DocLM.expert_ranking, groupScores,
      allAnswers, appendEntry, sortDesc, insertDesc, DocLM.calculate_document_score,
      corpusW]
  exact ⟨hm1,
    doc_level_score_is_mean_of_answer_scores.1 [] corpusW zeroTf 0 1 1 ("E1") 0 hm1,
    hm2,
    doc_level_score_is_mean_of_answer_scores.2 [] corpusW zeroTf 0 1 ("E1") 1 hm2⟩

/-! ### Document-level language model positivity -/

theorem foldl_mul_eq_prod {β : Type} (g : β → ℚ) (l : List β) (a : ℚ) :
    l.foldl (fun acc t => acc * g t) a = a * (l.map g).prod := by
  induction l generalizing a with
  | nil => simp
  | cons x l ih => rw [List.foldl_cons, ih, List.map_cons, List.prod_cons, mul_assoc]

theorem docLM_lambda_nonneg (doc_length : ℕ) (beta : ℚ) (hb : 0 ≤ beta) :
    0 ≤ DocLM.calculate_lambda_doc_level doc_length beta := by
  rw [DocLM.calculate_lambda_doc_level]
  exact div_nonneg hb (by positivity)

theorem docLM_lambda_le_one (doc_length : ℕ) (beta : ℚ) (hb : 0 ≤ beta) :
    DocLM.calculate_lambda_doc_level doc_length beta ≤ 1 := by
  rw [DocLM.calculate_lambda_doc_level]
  rcases eq_or_lt_of_le hb with h | h
  · rw [← h]
    simp
  · refine div_le_one_of_le₀ ?_ ?_
    · have : (0 : ℚ) ≤ (doc_length : ℚ) := Nat.cast_nonneg _
      linarith
    · have : (0 : ℚ) ≤ (doc_length : ℚ) := Nat.cast_nonneg _
      linarith

theorem docLM_p_tc_nonneg (term : String) (tf : String → ℕ) (total_terms : ℕ) :
    0 ≤ DocLM.calculate_p_tc term tf total_terms := by
  rw [DocLM.calculate_p_tc]
  exact div_nonneg (Nat.cast_nonneg _) (Nat.cast_nonneg _)

theorem docLM_factor_pos (term : String) (document : List String)
    (tf : String → ℕ) (total_terms : ℕ) (beta : ℚ) (hb : 0 ≤ beta) :
    0 < (1 - DocLM.calculate_lambda_doc_level document.length beta) *
        (if document.length > 0 then (document.count term : ℚ) / (document.length : ℚ)
          else 0) +
      DocLM.calculate_lambda_doc_level document.length beta *
        DocLM.calculate_p_tc term tf total_terms + smallFloor := by
  have h1 : 0 ≤ (1 - DocLM.calculate_lambda_doc_level document.length beta) *
      (if document.length > 0 then (document.count term : ℚ) / (document.length : ℚ)
        else 0) := by
    refine mul_nonneg (sub_nonneg.mpr (docLM_lambda_le_one document.length beta hb)) ?_
    split
    · exact div_nonneg (Nat.cast_nonneg _) (Nat.cast_nonneg _)
    · exact le_refl 0
  have h2 : 0 ≤ DocLM.calculate_lambda_doc_level document.length beta *
      DocLM.calculate_p_tc term tf total_terms :=
    mul_nonneg (docLM_lambda_nonneg document.length beta hb)
      (docLM_p_tc_nonneg term tf total_terms)
  have h3 : 0 < smallFloor := by
    rw [smallFloor]
    norm_num
  linarith

theorem docLM_document_score_pos (query_terms document : List String)
    (tf : String → ℕ) (total_terms : ℕ) (beta : ℚ) (hb : 0 ≤ beta) :
    0 < DocLM.calculate_document_score query_terms document tf total_terms beta := by
  have h2 : DocLM.calculate_document_score query_terms document tf total_terms beta =
      1 * (query_terms.map (fun term =>
        (1 - DocLM.calculate_lambda_doc_level document.length beta) *
          (if document.length > 0 then (document.count term : ℚ) / (document.length : ℚ)
            else 0) +
        DocLM.calculate_lambda_doc_level document.length beta *
          DocLM.calculate_p_tc term tf total_terms + smallFloor)).prod :=
    foldl_mul_eq_prod _ query_terms 1
  rw [h2, one_mul]
  refine List.prod_pos ?_
  intro x hx
  rcases List.mem_map.mp hx with ⟨t, _, rfl⟩
  exact docLM_factor_pos t document tf total_terms beta hb

/-- Claim C10: with the statistics-derived nonnegative smoothing parameter,
every per-document language-model score is strictly positive for a
nonempty query (every per-term factor carries the unconditional additive
floor 1e-10), and therefore every aggregated expert mean score in the
LM-document ranking is strictly positive. -/
theorem docLM_scores_strictly_positive (query_terms : List String)
    (data : Corpus) (term_frequencies : String → ℕ) (total_terms : ℕ) (beta : ℚ)
    (hq : query_terms ≠ []) (hb : 0 ≤ beta) :
    (∀ document : List String,
      0 < DocLM.calculate_document_score query_terms document term_frequencies
        total_terms beta) ∧
    (∀ e s, (e, s) ∈ DocLM.rank_experts_doc_level query_terms data term_frequencies
        total_terms beta → 0 < s) := by
  refine ⟨fun document =>
    docLM_document_score_pos query_terms document term_frequencies total_terms beta hb,
    ?_⟩
  intro e s h
  rcases rank_mean_char
    (fun a => DocLM.calculate_document_score query_terms a.answer_text
      term_frequencies total_terms beta) data e s h with ⟨hmean, hne⟩
  rw [hmean]
  refine div_pos ?_ ?_
  · refine List.sum_pos _ ?_ hne
    intro x hx
    rcases List.mem_map.mp hx with ⟨a, _, rfl⟩
    exact docLM_document_score_pos query_terms a.answer_text term_frequencies
      total_terms beta hb
  · have hlen := List.length_pos.mpr hne
    exact_mod_cast hlen

/-- Witness for claim C10 at a concrete nonempty query and one-answer
corpus. -/
theorem docLM_scores_strictly_positive_witness :
    (0 < DocLM.calculate_document_score [("t" : String)] [] zeroTf 0 1) ∧
    (0 < smallFloor) := by
  have hmem : (("E1" : String), smallFloor) ∈
      DocLM.rank_experts_doc_level [("t" : String)] corpusW zeroTf 0 1 := by
    simp [DocLM.rank_experts_doc_level, DocLM.expert_ranking, groupScores,
      allAnswers, appendEntry, sortDesc, insertDesc, DocLM.calculate_document_score,
      DocLM.calculate_lambda_doc_level, DocLM.calculate_p_tc, corpusW, zeroTf]
  obtain ⟨h1, h2⟩ := docLM_scores_strictly_positive [("t" : String)] corpusW zeroTf 0 1
    (by simp) (by norm_num)
  exact ⟨h1 [], h2 ("E1") smallFloor hmem⟩

/-! ### What the statistics builders actually count -/

theorem stats_fold_tf (g : Answer → List String) (answers : List Answer)
    (st0 : (String → ℕ) × ℕ × ℕ) (term : String) :
    (answers.foldl (fun (st : (String → ℕ) × ℕ × ℕ) (a : Answer) =>
      let words := g a
      (fun t => st.1 t + words.count t, st.2.1 + words.length, st.2.2 + 1)) st0).1 term =
      st0.1 term + (answers.map (fun a => (g a).count term)).sum := by
  induction answers generalizing st0 with
  | nil => simp
  | cons a answers ih =>
    rw [List.foldl_cons, ih]
    simp [add_assoc]

/-- Claim C3 (amended): the quantity plugged in as df in the BM25 IDF is
the total number of occurrences of the term across the collection, not the
number of documents containing it: the candidate-level counter sums the
occurrence counts over all expert profiles, and both document-level
statistics builders sum the occurrence counts over all answers. -/
theorem term_frequencies_are_occurrence_totals (ea : ExpertAnswers)
    (pp : List String → List String) (data : Corpus) (term : String) :
    CandBM25.termFrequenciesOf ea term =
      ((CandBM25.profilesOf ea).map (fun d => d.count term)).sum ∧
    (DocBM25.load_and_calculate_statistics pp data).1 term =
      ((allAnswers data).map (fun a => (pp a.answer_text).count term)).sum ∧
    (DocLM.load_and_calculate_statistics data).1 term =
      ((allAnswers data).map (fun a => a.answer_text.count term)).sum := by
  refine ⟨?_, ?_, ?_⟩
  · show (CandBM25.profilesOf ea).flatten.count term = _
    rw [List.count_flatten]
  · rw [DocBM25.load_and_calculate_statistics,
      stats_fold_tf (fun a => pp a.answer_text) (allAnswers data) _ term]
    simp
  · rw [DocLM.load_and_calculate_statistics,
      stats_fold_tf (fun a => a.answer_text) (allAnswers data) _ term]
    simp

/-- Counterexample to claim C3 as stated: for a one-expert collection whose
single profile holds the token t twice, the counter used as df in the IDF
gives 2 while the number of documents containing t is 1, and the two df
values yield different IDF values (one negative, one positive). -/
theorem df_is_not_document_frequency :
    CandBM25.termFrequenciesOf
      [(("E1" : String), [[("t" : String)], [("t" : String)]])] ("t") = 2 ∧
    docFrequency (CandBM25.profilesOf
      [(("E1" : String), [[("t" : String)], [("t" : String)]])]) ("t") = 1 ∧
    CandBM25.bm25_idf 1 2 ≠ CandBM25.bm25_idf 1 1 := by
  refine ⟨by rfl, by rfl, ?_⟩
  have h1 : CandBM25.bm25_idf 1 2 < 0 := by
    rw [CandBM25.bm25_idf,
      show (((1:ℕ) : ℝ) - ((2:ℕ) : ℝ) + 0.5) / (((2:ℕ) : ℝ) + 0.5) + 1 = 4/5 by
        norm_num]
    exact Real.log_neg (by norm_num) (by norm_num)
  have h2 : 0 < CandBM25.bm25_idf 1 1 := by
    rw [CandBM25.bm25_idf,
      show (((1:ℕ) : ℝ) - ((1:ℕ) : ℝ) + 0.5) / (((1:ℕ) : ℝ) + 0.5) + 1 = 4/3 by
        norm_num]
    exact Real.log_pos (by norm_num)
  exact ne_of_lt (h1.trans h2)

/-! ### Candidate-level BM25: what is actually scored -/

/-- Claim C1 (amended): the candidate-level BM25 strategy builds
profile-level statistics but then scores each answer separately with BM25
and emits, per expert, the arithmetic mean of the per-answer scores: every
entry of the expert dict appears in the ranking paired with that mean. -/
theorem cand_bm25_emits_mean_of_answer_scores (query_terms : List String)
    (ea : ExpertAnswers) (p : String × List (List String)) (hp : p ∈ ea) :
    (p.1, ((p.2.map (fun answer => CandBM25.calculate_bm25_score query_terms answer
        (CandBM25.termFrequenciesOf ea) ea.length (CandBM25.avg_doc_lengthOf ea)
        1.5 0.75)).sum) / (p.2.length : ℝ)) ∈
      CandBM25.rank_experts_bm25 query_terms ea := by
  rw [CandBM25.rank_experts_bm25]
  refine (sortDesc_perm _).mem_iff.mpr ?_
  rw [CandBM25.ranking_list]
  exact List.mem_map.mpr ⟨p, hp, rfl⟩

/-- Witness for the amended claim C1 at a one-expert, one-answer input. -/
theorem cand_bm25_emits_mean_witness :
    (("E1" : String),
      ((([([] : List String)] : List (List String)).map
        (fun answer => CandBM25.calculate_bm25_score [] answer
          (CandBM25.termFrequenciesOf [(("E1" : String), [([] : List String)])])
          ([(("E1" : String), [([] : List String)])] : ExpertAnswers).length
          (CandBM25.avg_doc_lengthOf [(("E1" : String), [([] : List String)])])
          1.5 0.75)).sum) /
        ((([([] : List String)] : List (List String)).length : ℝ))) ∈
      CandBM25.rank_experts_bm25 [] [(("E1" : String), [([] : List String)])] :=
  cand_bm25_emits_mean_of_answer_scores []
    [(("E1" : String), [([] : List String)])]
    (("E1" : String), [([] : List String)]) (by simp)

/-- Counterexample to claim C1 as stated: on a one-expert input whose two
answers each hold the token t once, the ranking emitted by the source
differs from the ranking of the spec-modelled strategy that scores the
concatenated profile once, because per-answer scoring with averaging and
concatenated scoring give different length normalizations. -/
theorem cand_bm25_differs_from_concatenation_scoring :
    CandBM25.rank_experts_bm25 [("t" : String)]
        [(("E1" : String), [[("t" : String)], [("t" : String)]])] ≠
      CandBM25.rank_experts_bm25_spec [("t" : String)]
        [(("E1" : String), [[("t" : String)], [("t" : String)]])] := by
  intro h
  simp [CandBM25.rank_experts_bm25, CandBM25.rank_experts_bm25_spec,
    CandBM25.ranking_list, sortDesc, insertDesc, CandBM25.calculate_bm25_score,
    CandBM25.termFrequenciesOf, CandBM25.profilesOf, CandBM25.avg_doc_lengthOf] at h
  norm_num at h
  have h1 : CandBM25.bm25_idf 1 2 < 0 := by
    rw [CandBM25.bm25_idf,
      show (((1:ℕ) : ℝ) - ((2:ℕ) : ℝ) + 0.5) / (((2:ℕ) : ℝ) + 0.5) + 1 = 4/5 by
        norm_num]
    exact Real.log_neg (by norm_num) (by norm_num)
  linarith [h1, h]
